import Mathlib

/-!
Verification of alertmanager-discord-notifier.

A shallow embedding of `src/main.go` (package `main`): the data model of lines 17-80,
`processAlert` (lines 84-143) and the request handler of `listenForAlerts` (lines 148-179).

Modelling conventions.

* A Go `string` is a Lean `String`.  Every string that reaches `processAlert` was produced by
  `json.Unmarshal`, which yields well-formed UTF-8 only, so a sequence of Unicode scalar values
  is the right carrier.
* A Go `[]byte` is a `List UInt8`; bytes are only moved around, never computed with.
* A Go `map[string]string` is the list of its entries in the order in which `range` enumerates
  them.  Go leaves that order unspecified, so every ordering of the entries is a possible value.
* Library code (`encoding/json`, `net/http`, `unicode`, `viper`) is not part of the repository.
  What the program obtains from it is collected in `Runtime`; side effects are recorded as a
  list of `Event`s that is threaded through the stateful functions.
-/

namespace Main

/-! ## Go values used by the program -/

/-- A Go `[]byte`. -/
abbrev Bytes := List UInt8

/-- A Go `map[string]string`, given by its entries in `range` order. -/
abbrev GoMap := List (String × String)

/-- The index expression `m[k]` on a `map[string]string`: the value stored under `k`,
or the zero value `""` when the key is absent. -/
def GoMap.index (m : GoMap) (k : String) : String :=
  match m.find? (fun e => e.1 = k) with
  | some e => e.2
  | none => ""

/-- A Go `error` value: either a plain error carrying a message, or the value built by
`fmt.Errorf` with a `%w` verb, which carries a message and the wrapped error. -/
inductive GoError where
  | errorString (msg : String)
  | wrapError (msg : String) (err : GoError)
  deriving DecidableEq, Repr

/-- The method `Error()`. -/
def GoError.Error : GoError → String
  | .errorString msg => msg
  | .wrapError msg _ => msg

/-- The method `Unwrap()` as seen by `errors.Unwrap`: the wrapped error, if any. -/
def GoError.Unwrap : GoError → Option GoError
  | .errorString _ => none
  | .wrapError _ err => some err

/-! ## `fmt.Sprintf` and `fmt.Errorf` -/

/-- An operand of a formatting verb. -/
inductive Arg where
  | str (s : String)
  | int (i : Int)
  | err (e : GoError)
  deriving DecidableEq, Repr

/-- Decimal rendering of an integer (verb `%d`). -/
def fmtInt (i : Int) : String :=
  if i < 0 then "-" ++ Nat.repr i.natAbs else Nat.repr i.toNat

/-- Go type name of an operand, used by the bad-verb rendering. -/
def Arg.typeName : Arg → String
  | .str _ => "string"
  | .int _ => "int"
  | .err (.errorString _) => "*errors.errorString"
  | .err (.wrapError _ _) => "*fmt.wrapError"

/-- Default rendering of an operand (verb `%v`). -/
def Arg.render : Arg → String
  | .str s => s
  | .int i => fmtInt i
  | .err e => e.Error

/-- Rendering of one operand under the verb `v`.  `%v` accepts every operand, `%s` a string
or an error, `%d` an integer, and `%w` an error when `wrapErrs` is set (inside `fmt.Errorf`).
Any other pairing gives Go's bad-verb text `%!v(type=value)`, where the value of an error
operand is abbreviated to its message. -/
def fmtVerb (wrapErrs : Bool) (v : Char) (x : Arg) : String :=
  let bad := "%!" ++ String.singleton v ++ "(" ++ x.typeName ++ "=" ++ x.render ++ ")"
  match x with
  | .str s => if v = 's' ∨ v = 'v' then s else bad
  | .int i => if v = 'd' ∨ v = 'v' then fmtInt i else bad
  | .err e => if v = 's' ∨ v = 'v' ∨ (v = 'w' ∧ wrapErrs = true) then e.Error else bad

/-- The text appended for operands that no verb consumed: `%!(EXTRA type=value, ...)`. -/
def fmtExtra (args : List Arg) : String :=
  match args with
  | [] => ""
  | _ => "%!(EXTRA " ++ ", ".intercalate (args.map (fun x => x.typeName ++ "=" ++ x.render)) ++ ")"

/-- The formatting loop of `fmt.Sprintf` over the characters of the format string: literal
characters are copied, `%%` is a percent sign, and `%` followed by a verb consumes the next
operand; a verb without operand is rendered as `%!v(MISSING)` and operands left over at the
end as `%!(EXTRA ...)`.  Flags, widths and precisions are not covered; the format strings of
the program use none. -/
def Sprintf.go (wrapErrs : Bool) : List Char → List Arg → String
  | [], args => fmtExtra args
  | c :: rest, args =>
    if c = '%' then
      match rest with
      | [] => "%!(NOVERB)"
      | v :: rest' =>
        if v = '%' then "%" ++ Sprintf.go wrapErrs rest' args
        else
          match args with
          | [] => "%!" ++ String.singleton v ++ "(MISSING)" ++ Sprintf.go wrapErrs rest' []
          | x :: args' => fmtVerb wrapErrs v x ++ Sprintf.go wrapErrs rest' args'
    else String.singleton c ++ Sprintf.go wrapErrs rest args

/-- The call `fmt.Sprintf(format, args...)` for the verbs `%s`, `%d`, `%v`, `%%`. -/
def Sprintf (format : String) (args : List Arg) : String :=
  Sprintf.go false format.data args

/-- The operand of the first `%w` verb of a format string, when it is an error. -/
def Errorf.wrapped : List Char → List Arg → Option GoError
  | [], _ => none
  | c :: rest, args =>
    if c = '%' then
      match rest with
      | [] => none
      | v :: rest' =>
        if v = '%' then Errorf.wrapped rest' args
        else
          match args with
          | [] => none
          | x :: args' =>
            if v = 'w' then
              match x with
              | .err e => some e
              | _ => Errorf.wrapped rest' args'
            else Errorf.wrapped rest' args'
    else Errorf.wrapped rest args

/-- The call `fmt.Errorf(format, args...)`: the message is formatted as by `Sprintf`, with
`%w` rendering an error operand like `%v`; when such a `%w` is present the result wraps
its operand. -/
def Errorf (format : String) (args : List Arg) : GoError :=
  match Errorf.wrapped format.data args with
  | some e => .wrapError (Sprintf.go true format.data args) e
  | none => .errorString (Sprintf.go true format.data args)

/-! ## `strings.ToUpper` -/

/-- The ASCII branch of `strings.ToUpper`: bytes `a`..`z` are shifted to `A`..`Z`. -/
def asciiUpper (c : Char) : Char :=
  if 'a'.toNat ≤ c.toNat ∧ c.toNat ≤ 'z'.toNat then Char.ofNat (c.toNat - 32) else c

/-- The call `strings.ToUpper(s)`: a string of ASCII characters only is mapped by
`asciiUpper`; any other string is mapped rune by rune through `unicode.ToUpper`, whose case
tables are supplied as `unicodeToUpper`. -/
def ToUpper (unicodeToUpper : Char → Char) (s : String) : String :=
  if s.data.all (fun c => c.toNat < 128) then String.mk (s.data.map asciiUpper)
  else String.mk (s.data.map unicodeToUpper)

/-! ## Data model (lines 17-80) -/

/-- The struct `Alert` (lines 30-38). -/
structure Alert where
  Status : String
  Labels : GoMap
  Annotations : GoMap
  StartsAt : String
  EndsAt : String
  GeneratorURL : String
  Fingerprint : String
  deriving DecidableEq, Repr

/-- The struct `AlertNotification` (lines 17-28). -/
structure AlertNotification where
  Version : String
  GroupKey : String
  TruncatedAlerts : Int
  Status : String
  Receiver : String
  GroupLabels : GoMap
  CommonLabels : GoMap
  CommonAnnotations : GoMap
  ExternalURL : String
  Alerts : List Alert
  deriving DecidableEq, Repr

/-- The struct `DiscordEmbedField` (lines 53-57). -/
structure DiscordEmbedField where
  Name : String
  Value : String
  Inline : Bool
  deriving DecidableEq, Repr

/-- The struct `DiscordEmbed` (lines 45-51). -/
structure DiscordEmbed where
  Title : String
  Description : String
  Url : String
  Color : Int
  Fields : List DiscordEmbedField
  deriving DecidableEq, Repr

/-- The struct `DiscordMessage` (lines 40-43). -/
structure DiscordMessage where
  Content : String
  Embeds : List DiscordEmbed
  deriving DecidableEq, Repr

/-- Discord color values (lines 60-64). -/
def ColorRed : Int := 0x992D22

def ColorGreen : Int := 0x2ECC71

def ColorGrey : Int := 0x95A5A6

/-- Discord emojis (lines 67-71). -/
def EmojiFiring : String := ":bangbang:"

def EmojiResolved : String := ":white_check_mark:"

def EmojiUnknown : String := ":grey_question:"

/-- Discord empty value (lines 74-80). -/
def Empty : String := "\u200b"

def EmptyEmbedField : DiscordEmbedField :=
  { Name := Empty, Value := Empty, Inline := false }

/-! ## The environment of the program -/

/-- The struct `http.Response`, restricted to the two fields the program reads. -/
structure Response where
  Status : String
  StatusCode : Int
  deriving DecidableEq, Repr

/-- The constants `http.StatusBadRequest`, `http.StatusInternalServerError` and
`http.StatusNoContent`. -/
def StatusBadRequest : Int := 400

def StatusInternalServerError : Int := 500

def StatusNoContent : Int := 204

/-- What the program obtains from library code and from its configuration.

* `unicodeToUpper` is `unicode.ToUpper`;
* `jsonMarshal` is `json.Marshal` on a `DiscordMessage`;
* `jsonUnmarshal` is `json.Unmarshal` into a fresh `AlertNotification`;
* `httpPost url contentType body` is the outcome of `http.Post`: a transport error, or the
  response of the destination;
* `webhook` is `viper.GetString("webhook")` and `debug` the global `debug` (line 82), both
  fixed at startup. -/
structure Runtime where
  unicodeToUpper : Char → Char
  jsonMarshal : DiscordMessage → Except GoError Bytes
  jsonUnmarshal : Bytes → Except GoError AlertNotification
  httpPost : String → String → Bytes → Except GoError Response
  webhook : String
  debug : Bool

/-- An operand of a logging call: a formatting operand or a byte slice. -/
inductive LogArg where
  | arg (a : Arg)
  | bytes (b : Bytes)
  deriving DecidableEq, Repr

/-- The side effects of the program, in the order in which they happen. -/
inductive Event where
  | logPrintf (format : String) (args : List LogArg)
  | logPrintln (line : String)
  | fmtPrintf (format : String) (args : List LogArg)
  | httpPost (url : String) (contentType : String) (body : Bytes)
  | writeHeader (code : Int)
  deriving DecidableEq, Repr

/-- An inbound `*http.Request` as the handler sees it: the three logged attributes and the
outcome of `ioutil.ReadAll(r.Body)`. -/
structure Request where
  Method : String
  Host : String
  RawPath : String
  ReadAll : Except GoError Bytes

/-! ## `processAlert` (lines 84-143) -/

/-- The locals `alertColor` and `alertEmoji` after the `switch a.Status` (lines 85-95). -/
def processAlert_switch (status : String) : Int × String :=
  if status = "firing" then (ColorRed, EmojiFiring)
  else if status = "resolved" then (ColorGreen, EmojiResolved)
  else (ColorGrey, EmojiUnknown)

/-- The local `dm` of `processAlert`: the message built on lines 85-124. -/
def processAlert_dm (rt : Runtime) (a : AlertNotification) : DiscordMessage :=
  let alertColor := (processAlert_switch a.Status).1
  let alertEmoji := (processAlert_switch a.Status).2
  let labelField : DiscordEmbedField :=
    a.CommonLabels.foldl
      (fun field e =>
        { field with Value := field.Value ++ Sprintf " - %s = %s\n" [.str e.1, .str e.2] })
      { Name := "Labels", Value := "", Inline := true }
  let annotationField : DiscordEmbedField :=
    a.CommonAnnotations.foldl
      (fun field e =>
        { field with Value := field.Value ++ Sprintf " - %s = %s\n" [.str e.1, .str e.2] })
      { Name := "Annotations", Value := "", Inline := true }
  { Content := "",
    Embeds :=
      [{ Title :=
           Sprintf "%s [%s:%d] %s"
             [.str alertEmoji, .str (ToUpper rt.unicodeToUpper a.Status),
              .int (Int.ofNat a.Alerts.length), .str (GoMap.index a.CommonLabels "alertname")],
         Description := "",
         Url := a.ExternalURL,
         Color := alertColor,
         Fields := [labelField, annotationField] }] }

/-- The function `processAlert`: returns the error (`none` for `nil`) and the extended list
of events. -/
def processAlert (rt : Runtime) (a : AlertNotification) (w : List Event) :
    Option GoError × List Event :=
  let dm := processAlert_dm rt a
  match rt.jsonMarshal dm with
  | .error err => (some (Errorf "failed to marshal request body: %w" [.err err]), w)
  | .ok dmBody =>
    let w1 :=
      if rt.debug then
        w ++ [Event.logPrintf "[DEBUG] sending discord webhook request with body: %s"
                [.bytes dmBody]]
      else w
    let w2 := w1 ++ [Event.httpPost rt.webhook "application/json" dmBody]
    match rt.httpPost rt.webhook "application/json" dmBody with
    | .error err => (some (Errorf "failed to send webhook request: %w" [.err err]), w2)
    | .ok resp =>
      if resp.StatusCode ≠ StatusNoContent then
        (some (Errorf "failed to send webhook request: %s" [.str resp.Status]), w2)
      else (none, w2)

/-! ## The handler of `listenForAlerts` (lines 148-179) -/

/-- The function literal passed to `http.HandlerFunc` in `listenForAlerts`. -/
def listenForAlerts_handler (rt : Runtime) (r : Request) (w : List Event) : List Event :=
  let w1 :=
    w ++ [Event.logPrintf "received %s on %s/%s"
            [.arg (.str r.Method), .arg (.str r.Host), .arg (.str r.RawPath)]]
  match r.ReadAll with
  | .error err =>
    w1 ++ [Event.logPrintf "ERROR: failed to read request body: %v" [.arg (.err err)],
           Event.writeHeader StatusBadRequest]
  | .ok body =>
    let w2 := if rt.debug then w1 ++ [Event.fmtPrintf "[DEBUG] received: %s" [.bytes body]] else w1
    match rt.jsonUnmarshal body with
    | .error err =>
      w2 ++ [Event.fmtPrintf "ERROR: failed to unmarshal request body: %v" [.arg (.err err)],
             Event.writeHeader StatusBadRequest]
    | .ok a =>
      match processAlert rt a w2 with
      | (some err, w3) =>
        w3 ++ [Event.logPrintf "ERROR: failed to process alert: %v" [.arg (.err err)],
               Event.writeHeader StatusInternalServerError]
      | (none, w3) =>
        w3 ++ [Event.logPrintln "successfully processed alert",
               Event.writeHeader StatusNoContent]

/-! ## JSON values and the struct tags of the Discord types (lines 40-57)

`encoding/json` turns a struct into a JSON object following the struct tags and reads an
object back into a struct following the same tags.  The tags are the repository's part of
that behaviour and are embedded here on JSON values; rendering a value as text and parsing
text into a value is left to the library. -/

/-- A JSON value.  `number` is an integer literal, `fraction` a number literal with a
fraction or an exponent. -/
inductive JSON where
  | null
  | bool (b : Bool)
  | number (n : Int)
  | fraction (literal : String)
  | string (s : String)
  | array (elems : List JSON)
  | object (members : List (String × JSON))

/-- Encoding of a `DiscordEmbedField`: tags `name`, `value`, `inline`, none with
`omitempty`. -/
def DiscordEmbedField.toJSON (f : DiscordEmbedField) : JSON :=
  .object [("name", .string f.Name), ("value", .string f.Value), ("inline", .bool f.Inline)]

/-- Encoding of a `DiscordEmbed`: `title`, `description`, `url` and `fields` carry
`omitempty` and are left out when empty; `color` is always written. -/
def DiscordEmbed.toJSON (e : DiscordEmbed) : JSON :=
  .object
    ((if e.Title = "" then [] else [("title", .string e.Title)]) ++
     (if e.Description = "" then [] else [("description", .string e.Description)]) ++
     (if e.Url = "" then [] else [("url", .string e.Url)]) ++
     [("color", .number e.Color)] ++
     (if e.Fields.length = 0 then []
      else [("fields", .array (e.Fields.map DiscordEmbedField.toJSON))]))

/-- Encoding of a `DiscordMessage`: both `content` and `embeds` carry `omitempty`. -/
def DiscordMessage.toJSON (m : DiscordMessage) : JSON :=
  .object
    ((if m.Content = "" then [] else [("content", .string m.Content)]) ++
     (if m.Embeds.length = 0 then []
      else [("embeds", .array (m.Embeds.map DiscordEmbed.toJSON))]))

/-- The error reported when a JSON value does not fit the Go type it is decoded into. -/
def unmarshalTypeError (goType : String) : GoError :=
  .errorString ("json: cannot unmarshal value into Go value of type " ++ goType)

/-- The struct field a JSON key is decoded into: the field whose tag equals the key, else the
first field whose tag matches the key under the decoder's case folding `equalFold`. -/
def findField (equalFold : String → String → Bool) (tags : List String) (key : String) :
    Option String :=
  match tags.find? (fun t => t = key) with
  | some t => some t
  | none => tags.find? (fun t => equalFold t key)

/-- Decoding into a `string`: `null` leaves the target as it is. -/
def decodeString (v : JSON) (old : String) : Except GoError String :=
  match v with
  | .null => .ok old
  | .string s => .ok s
  | _ => .error (unmarshalTypeError "string")

/-- Decoding into an `int` (64 bits): `null` leaves the target as it is. -/
def decodeInt (v : JSON) (old : Int) : Except GoError Int :=
  match v with
  | .null => .ok old
  | .number n =>
    if -(2 : Int) ^ 63 ≤ n ∧ n < (2 : Int) ^ 63 then .ok n else .error (unmarshalTypeError "int")
  | _ => .error (unmarshalTypeError "int")

/-- Decoding into a `bool`: `null` leaves the target as it is. -/
def decodeBool (v : JSON) (old : Bool) : Except GoError Bool :=
  match v with
  | .null => .ok old
  | .bool b => .ok b
  | _ => .error (unmarshalTypeError "bool")

/-- Decoding the members of a JSON object one after the other into a struct. -/
def decodeMembers {α : Type} (set : α → String → JSON → Except GoError α) :
    List (String × JSON) → α → Except GoError α
  | [], x => .ok x
  | kv :: rest, x =>
    match set x kv.1 kv.2 with
    | .error e => .error e
    | .ok y => decodeMembers set rest y

/-- Decoding the elements of a JSON array into a fresh slice, each element starting from the
zero value of the element type. -/
def decodeElems {α : Type} (zero : α) (dec : JSON → α → Except GoError α) :
    List JSON → Except GoError (List α)
  | [] => .ok []
  | v :: rest =>
    match dec v zero with
    | .error e => .error e
    | .ok x =>
      match decodeElems zero dec rest with
      | .error e => .error e
      | .ok xs => .ok (x :: xs)

/-- Decoding one object member into a `DiscordEmbedField`. -/
def DiscordEmbedField.setMember (equalFold : String → String → Bool) (f : DiscordEmbedField)
    (key : String) (v : JSON) : Except GoError DiscordEmbedField :=
  match findField equalFold ["name", "value", "inline"] key with
  | none => .ok f
  | some tag =>
    if tag = "name" then (decodeString v f.Name).map (fun s => { f with Name := s })
    else if tag = "value" then (decodeString v f.Value).map (fun s => { f with Value := s })
    else (decodeBool v f.Inline).map (fun b => { f with Inline := b })

/-- Decoding into a `DiscordEmbedField`. -/
def DiscordEmbedField.fromJSON (equalFold : String → String → Bool) (v : JSON)
    (old : DiscordEmbedField) : Except GoError DiscordEmbedField :=
  match v with
  | .null => .ok old
  | .object members => decodeMembers (DiscordEmbedField.setMember equalFold) members old
  | _ => .error (unmarshalTypeError "main.DiscordEmbedField")

/-- Decoding into a `[]DiscordEmbedField`. -/
def decodeFields (equalFold : String → String → Bool) (v : JSON)
    (old : List DiscordEmbedField) : Except GoError (List DiscordEmbedField) :=
  match v with
  | .null => .ok old
  | .array elems =>
    decodeElems { Name := "", Value := "", Inline := false }
      (DiscordEmbedField.fromJSON equalFold) elems
  | _ => .error (unmarshalTypeError "[]main.DiscordEmbedField")

/-- Decoding one object member into a `DiscordEmbed`. -/
def DiscordEmbed.setMember (equalFold : String → String → Bool) (e : DiscordEmbed)
    (key : String) (v : JSON) : Except GoError DiscordEmbed :=
  match findField equalFold ["title", "description", "url", "color", "fields"] key with
  | none => .ok e
  | some tag =>
    if tag = "title" then (decodeString v e.Title).map (fun s => { e with Title := s })
    else if tag = "description" then
      (decodeString v e.Description).map (fun s => { e with Description := s })
    else if tag = "url" then (decodeString v e.Url).map (fun s => { e with Url := s })
    else if tag = "color" then (decodeInt v e.Color).map (fun n => { e with Color := n })
    else (decodeFields equalFold v e.Fields).map (fun fs => { e with Fields := fs })

/-- Decoding into a `DiscordEmbed`. -/
def DiscordEmbed.fromJSON (equalFold : String → String → Bool) (v : JSON)
    (old : DiscordEmbed) : Except GoError DiscordEmbed :=
  match v with
  | .null => .ok old
  | .object members => decodeMembers (DiscordEmbed.setMember equalFold) members old
  | _ => .error (unmarshalTypeError "main.DiscordEmbed")

/-- Decoding into a `[]DiscordEmbed`. -/
def decodeEmbeds (equalFold : String → String → Bool) (v : JSON)
    (old : List DiscordEmbed) : Except GoError (List DiscordEmbed) :=
  match v with
  | .null => .ok old
  | .array elems =>
    decodeElems { Title := "", Description := "", Url := "", Color := 0, Fields := [] }
      (DiscordEmbed.fromJSON equalFold) elems
  | _ => .error (unmarshalTypeError "[]main.DiscordEmbed")

/-- Decoding one object member into a `DiscordMessage`. -/
def DiscordMessage.setMember (equalFold : String → String → Bool) (m : DiscordMessage)
    (key : String) (v : JSON) : Except GoError DiscordMessage :=
  match findField equalFold ["content", "embeds"] key with
  | none => .ok m
  | some tag =>
    if tag = "content" then (decodeString v m.Content).map (fun s => { m with Content := s })
    else (decodeEmbeds equalFold v m.Embeds).map (fun es => { m with Embeds := es })

/-- Decoding into a `DiscordMessage`. -/
def DiscordMessage.fromJSON (equalFold : String → String → Bool) (v : JSON)
    (old : DiscordMessage) : Except GoError DiscordMessage :=
  match v with
  | .null => .ok old
  | .object members => decodeMembers (DiscordMessage.setMember equalFold) members old
  | _ => .error (unmarshalTypeError "main.DiscordMessage")

/-- Parsing a JSON value back into a fresh `DiscordMessage`, as `json.Unmarshal` does with a
pointer to the zero value. -/
def DiscordMessage.unmarshal (equalFold : String → String → Bool) (v : JSON) :
    Except GoError DiscordMessage :=
  DiscordMessage.fromJSON equalFold v { Content := "", Embeds := [] }

/-! ## Observations on traces and sample inputs -/

/-- The status codes passed to `rw.WriteHeader`, in order. -/
def writtenHeaders (w : List Event) : List Int :=
  w.filterMap (fun ev => match ev with
    | .writeHeader code => some code
    | _ => none)

/-- The outbound POSTs of a trace, in order: destination, content type and body. -/
def posts (w : List Event) : List (String × String × Bytes) :=
  w.filterMap (fun ev => match ev with
    | .httpPost url contentType body => some (url, contentType, body)
    | _ => none)

/-- The notification the handler hands to `processAlert`: present when the body was read and
decoded, absent when either step failed. -/
def decoded (rt : Runtime) (r : Request) : Option AlertNotification :=
  match r.ReadAll with
  | .error _ => none
  | .ok body =>
    match rt.jsonUnmarshal body with
    | .error _ => none
    | .ok a => some a

/-- One line of a field value for the entry `e` of a mapping. -/
def entryLine (e : String × String) : String :=
  " - " ++ e.1 ++ " = " ++ e.2 ++ "\n"


/-- A runtime in which nothing fails: marshalling yields an empty body, every body decodes
to the notification `a`, and the destination answers `204 No Content`. -/
def sampleRuntime (a : AlertNotification) : Runtime :=
  { unicodeToUpper := fun c => c,
    jsonMarshal := fun _ => .ok [],
    jsonUnmarshal := fun _ => .ok a,
    httpPost := fun _ _ _ => .ok { Status := "204 No Content", StatusCode := 204 },
    webhook := "http://discord.invalid/hook",
    debug := false }

/-- The notification of scenario 1: status `firing`, two alerts, `alertname` is `HighCPU`. -/
def scenario1 : AlertNotification :=
  { Version := "4", GroupKey := "", TruncatedAlerts := 0, Status := "firing", Receiver := "",
    GroupLabels := [], CommonLabels := [("alertname", "HighCPU")], CommonAnnotations := [],
    ExternalURL := "http://x",
    Alerts :=
      [{ Status := "", Labels := [], Annotations := [], StartsAt := "", EndsAt := "",
         GeneratorURL := "", Fingerprint := "" },
       { Status := "", Labels := [], Annotations := [], StartsAt := "", EndsAt := "",
         GeneratorURL := "", Fingerprint := "" }] }

/-- A notification whose two common labels are enumerated with `severity` first. -/
def severityFirst : AlertNotification :=
  { scenario1 with CommonLabels := [("severity", "page"), ("alertname", "HighCPU")] }

/-- The same notification with the same two labels enumerated with `alertname` first, and
with different values in the fields that the message does not depend on. -/
def alertnameFirst : AlertNotification :=
  { scenario1 with
    Version := "5", GroupKey := "group", TruncatedAlerts := 7, Receiver := "discord",
    GroupLabels := [("job", "node")],
    CommonLabels := [("alertname", "HighCPU"), ("severity", "page")],
    Alerts :=
      [{ Status := "firing", Labels := [("instance", "a")], Annotations := [], StartsAt := "t0",
         EndsAt := "", GeneratorURL := "http://g", Fingerprint := "f1" },
       { Status := "resolved", Labels := [], Annotations := [("summary", "s")], StartsAt := "",
         EndsAt := "t1", GeneratorURL := "", Fingerprint := "f2" }] }

/-- The runtime of scenario 4: the destination answers `200 OK` instead of `204`. -/
def rejectingRuntime : Runtime :=
  { sampleRuntime scenario1 with
    httpPost := fun _ _ _ => .ok { Status := "200 OK", StatusCode := 200 } }

/-- A runtime in which serialising the message fails; the destination would answer `204`. -/
def marshalFailingRuntime : Runtime :=
  { sampleRuntime scenario1 with
    jsonMarshal := fun _ => .error (.errorString "unsupported value") }

/-- The notification `scenario1` with different values in the fields that the message does
not depend on. -/
def versionFive : AlertNotification :=
  { alertnameFirst with CommonLabels := [("alertname", "HighCPU")] }

/-- The values of the fields of every embed of a message. -/
def fieldValues (m : DiscordMessage) : List (List String) :=
  m.Embeds.map (fun e => e.Fields.map DiscordEmbedField.Value)

/-- The field value described by claim C8: one line per entry of the mapping, the entries
taken in ascending order of their keys, compared character by character. -/
def sortedFieldValue (m : GoMap) : String :=
  String.join ((m.insertionSort (fun x y => x.1.data ≤ y.1.data)).map entryLine)

/-! ## Auxiliary lemmas -/

theorem Sprintf_line (l v : String) :
    Sprintf " - %s = %s\n" [.str l, .str v] = entryLine (l, v) := by
  simp +decide [Sprintf, Sprintf.go, fmtVerb, fmtExtra, entryLine, String.ext_iff]

theorem fmtInt_ofNat (n : Nat) : fmtInt (Int.ofNat n) = Nat.repr n := by
  simp [fmtInt]

theorem Sprintf_title (emoji status name : String) (n : Nat) :
    Sprintf "%s [%s:%d] %s" [.str emoji, .str status, .int (Int.ofNat n), .str name] =
      emoji ++ " [" ++ status ++ ":" ++ Nat.repr n ++ "] " ++ name := by
  have h := fmtInt_ofNat n
  simp +decide [Sprintf, Sprintf.go, fmtVerb, fmtExtra, String.ext_iff] at h ⊢
  simp [h]

/-- The loop over a mapping only touches the `Value` of the field it extends: it appends the
lines of the entries in iteration order. -/
theorem foldl_field (m : GoMap) (f : DiscordEmbedField) :
    m.foldl
        (fun field e =>
          { field with Value := field.Value ++ Sprintf " - %s = %s\n" [.str e.1, .str e.2] })
        f =
      { Name := f.Name, Value := f.Value ++ String.join (m.map entryLine), Inline := f.Inline } := by
  simp only [Sprintf_line]
  induction m generalizing f with
  | nil => simp [String.join]
  | cons e m ih =>
    simp only [List.foldl_cons, ih, List.map_cons]
    simp [String.ext_iff]

theorem GoMap_index_eq_lookup (m : GoMap) (k : String) :
    GoMap.index m k = (m.lookup k).getD "" := by
  induction m with
  | nil => simp [GoMap.index]
  | cons e m ih =>
    obtain ⟨k', v⟩ := e
    by_cases h : k' = k
    · subst h
      simp [GoMap.index, List.lookup]
    · have h' : (k == k') = false := by simpa using fun h'' => h h''.symm
      simp only [GoMap.index] at ih
      simp [GoMap.index, List.lookup, h, h', ih]

theorem processAlert_dm_eq (rt : Runtime) (a : AlertNotification) :
    processAlert_dm rt a =
      { Content := "",
        Embeds :=
          [{ Title :=
               (processAlert_switch a.Status).2 ++ " [" ++ ToUpper rt.unicodeToUpper a.Status ++
                 ":" ++ Nat.repr a.Alerts.length ++ "] " ++ GoMap.index a.CommonLabels "alertname",
             Description := "",
             Url := a.ExternalURL,
             Color := (processAlert_switch a.Status).1,
             Fields :=
               [{ Name := "Labels", Value := String.join (a.CommonLabels.map entryLine),
                  Inline := true },
                { Name := "Annotations",
                  Value := String.join (a.CommonAnnotations.map entryLine),
                  Inline := true }] }] } := by
  simp only [processAlert_dm, foldl_field, Sprintf_title]
  simp [String.ext_iff]

/-! ## The transformation (claims C1-C4, C8, C10) -/

/-- C1: the color and emoji chosen by `processAlert` are red and `:bangbang:` for the status
`firing`, green and `:white_check_mark:` for `resolved`, and grey and `:grey_question:` for
every other status, among them the empty string and `FIRING`; the choice is defined for
every status and the chosen color is the color of the embed. -/
theorem processAlert_status_mapping (rt : Runtime) (a : AlertNotification) :
    processAlert_switch a.Status =
        (if a.Status = "firing" then ((0x992D22 : Int), ":bangbang:")
         else if a.Status = "resolved" then ((0x2ECC71 : Int), ":white_check_mark:")
         else ((0x95A5A6 : Int), ":grey_question:")) ∧
      (processAlert_dm rt a).Embeds.map DiscordEmbed.Color = [(processAlert_switch a.Status).1] ∧
      processAlert_switch "" = ((0x95A5A6 : Int), ":grey_question:") ∧
      processAlert_switch "FIRING" = ((0x95A5A6 : Int), ":grey_question:") := by
  refine ⟨?_, ?_, by decide, by decide⟩
  · simp only [processAlert_switch, ColorRed, ColorGreen, ColorGrey, EmojiFiring, EmojiResolved,
      EmojiUnknown]
  · simp [processAlert_dm_eq]

/-- C2: the embed title is the status emoji, then ` [`, the uppercased status, `:`, the
decimal number of alerts, `] ` and the value of `commonLabels["alertname"]`, which is the
empty string when the key is absent; with status `firing`, two alerts of any content and
`alertname` equal to `HighCPU` the title is `:bangbang: [FIRING:2] HighCPU`. -/
theorem processAlert_title (rt : Runtime) (a : AlertNotification) :
    (processAlert_dm rt a).Embeds.map DiscordEmbed.Title =
        [(processAlert_switch a.Status).2 ++ " [" ++ ToUpper rt.unicodeToUpper a.Status ++ ":" ++
          Nat.repr a.Alerts.length ++ "] " ++ (a.CommonLabels.lookup "alertname").getD ""] ∧
      ∀ (x y : Alert) (others : GoMap),
        (processAlert_dm rt
            { a with
              Status := "firing", Alerts := [x, y],
              CommonLabels := ("alertname", "HighCPU") :: others }).Embeds.map
            DiscordEmbed.Title =
          [":bangbang: [FIRING:2] HighCPU"] := by
  refine ⟨?_, ?_⟩
  · simp [processAlert_dm_eq, GoMap_index_eq_lookup]
  · intro x y others
    have h1 : (processAlert_switch "firing").2 = ":bangbang:" := by decide
    have h2 : ToUpper rt.unicodeToUpper "firing" = "FIRING" := by
      simp +decide [ToUpper]
    have h3 : Nat.repr [x, y].length = "2" := by
      simp only [List.length_cons, List.length_nil]
      decide
    have h4 : GoMap.index (("alertname", "HighCPU") :: others) "alertname" = "HighCPU" := by
      simp [GoMap.index]
    simp only [processAlert_dm_eq, List.map_cons, List.map_nil, h1, h2, h3, h4]
    decide

/-- C3: the message has no top-level content and exactly one embed; the embed carries the
external URL and the status color, and exactly the two fields `Labels` and `Annotations`, in
this order and both inline, whatever the two mappings contain. -/
theorem processAlert_message_shape (rt : Runtime) (a : AlertNotification) :
    (processAlert_dm rt a).Content = "" ∧
      (processAlert_dm rt a).Embeds.length = 1 ∧
      (processAlert_dm rt a).Embeds.map DiscordEmbed.Url = [a.ExternalURL] ∧
      (processAlert_dm rt a).Embeds.map DiscordEmbed.Color = [(processAlert_switch a.Status).1] ∧
      (processAlert_dm rt a).Embeds.map
          (fun e => e.Fields.map (fun f => (f.Name, f.Inline))) =
        [[("Labels", true), ("Annotations", true)]] ∧
      (processAlert_dm rt { a with CommonLabels := [], CommonAnnotations := [] }).Embeds.map
          DiscordEmbed.Fields =
        [[{ Name := "Labels", Value := "", Inline := true },
          { Name := "Annotations", Value := "", Inline := true }]] := by
  simp [processAlert_dm_eq, String.join]

/-- C4: the value of the `Labels` field is the concatenation of one line
` - key = value` plus newline per entry of `commonLabels`, each entry once and in the order
in which the mapping is enumerated, and nothing else; likewise for `Annotations` and
`commonAnnotations`; an empty mapping gives the empty string. -/
theorem processAlert_field_values (rt : Runtime) (a : AlertNotification) :
    fieldValues (processAlert_dm rt a) =
        [[String.join (a.CommonLabels.map entryLine),
          String.join (a.CommonAnnotations.map entryLine)]] ∧
      fieldValues (processAlert_dm rt { a with CommonLabels := [], CommonAnnotations := [] }) =
        [["", ""]] := by
  simp [fieldValues, processAlert_dm_eq, String.join]

/-- C8, refuted as stated: with the labels enumerated as `severity`, `alertname` the line of
`severity` precedes the line of `alertname`, so the field values are not the lines in
ascending key order; and the notification with the same two labels enumerated the other way
round gets a different field value. -/
theorem field_values_not_sorted :
    fieldValues (processAlert_dm (sampleRuntime scenario1) severityFirst) ≠
        [[sortedFieldValue severityFirst.CommonLabels,
          sortedFieldValue severityFirst.CommonAnnotations]] ∧
      fieldValues (processAlert_dm (sampleRuntime scenario1) severityFirst) =
        [[" - severity = page\n - alertname = HighCPU\n", ""]] ∧
      fieldValues (processAlert_dm (sampleRuntime scenario1) alertnameFirst) =
        [[" - alertname = HighCPU\n - severity = page\n", ""]] ∧
      severityFirst.CommonLabels.Perm alertnameFirst.CommonLabels ∧
      severityFirst.CommonAnnotations = alertnameFirst.CommonAnnotations ∧
      fieldValues (processAlert_dm (sampleRuntime scenario1) severityFirst) ≠
        fieldValues (processAlert_dm (sampleRuntime scenario1) alertnameFirst) := by
  refine ⟨by decide, by decide, by decide, List.Perm.swap _ _ _, rfl, by decide⟩

/-- C8, amended: the lines of the two field values appear in the order in which the
mappings are enumerated.  Two notifications with the same entries get values made of the
same lines, possibly in a different order, and byte-identical values when the mappings are
enumerated in the same order. -/
theorem field_values_iteration_order (rt : Runtime) (a b : AlertNotification)
    (hl : a.CommonLabels.Perm b.CommonLabels)
    (ha : a.CommonAnnotations.Perm b.CommonAnnotations) :
    fieldValues (processAlert_dm rt a) =
        [[String.join (a.CommonLabels.map entryLine),
          String.join (a.CommonAnnotations.map entryLine)]] ∧
      fieldValues (processAlert_dm rt b) =
        [[String.join (b.CommonLabels.map entryLine),
          String.join (b.CommonAnnotations.map entryLine)]] ∧
      (a.CommonLabels.map entryLine).Perm (b.CommonLabels.map entryLine) ∧
      (a.CommonAnnotations.map entryLine).Perm (b.CommonAnnotations.map entryLine) ∧
      (a.CommonLabels = b.CommonLabels → a.CommonAnnotations = b.CommonAnnotations →
        fieldValues (processAlert_dm rt a) = fieldValues (processAlert_dm rt b)) := by
  refine ⟨?_, ?_, hl.map _, ha.map _, ?_⟩
  · simp [fieldValues, processAlert_dm_eq]
  · simp [fieldValues, processAlert_dm_eq]
  · intro h1 h2
    simp [fieldValues, processAlert_dm_eq, h1, h2]

theorem field_values_iteration_order_witness :
    (severityFirst.CommonLabels.map entryLine).Perm (alertnameFirst.CommonLabels.map entryLine) ∧
      fieldValues (processAlert_dm (sampleRuntime scenario1) severityFirst) =
        [[String.join (severityFirst.CommonLabels.map entryLine),
          String.join (severityFirst.CommonAnnotations.map entryLine)]] :=
  have h :=
    field_values_iteration_order (sampleRuntime scenario1) severityFirst alertnameFirst
      (List.Perm.swap _ _ _) (List.Perm.refl _)
  ⟨h.2.2.1, h.1⟩

/-- C10: the message depends only on the status, the common labels, the common annotations,
the external URL and the number of alerts: two notifications that agree on these, with the
mappings enumerated in the same order, get equal messages, whatever else they contain. -/
theorem processAlert_dm_depends_only_on (rt : Runtime) (a b : AlertNotification)
    (hStatus : a.Status = b.Status) (hLabels : a.CommonLabels = b.CommonLabels)
    (hAnnotations : a.CommonAnnotations = b.CommonAnnotations)
    (hURL : a.ExternalURL = b.ExternalURL) (hAlerts : a.Alerts.length = b.Alerts.length) :
    processAlert_dm rt a = processAlert_dm rt b := by
  simp only [processAlert_dm, hStatus, hLabels, hAnnotations, hURL, hAlerts]

theorem processAlert_dm_depends_only_on_witness :
    scenario1.Version ≠ versionFive.Version ∧ scenario1.Alerts ≠ versionFive.Alerts ∧
      processAlert_dm (sampleRuntime scenario1) scenario1 =
        processAlert_dm (sampleRuntime scenario1) versionFive :=
  ⟨by decide, by decide,
    processAlert_dm_depends_only_on (sampleRuntime scenario1) scenario1 versionFive
      rfl rfl rfl rfl rfl⟩

/-! ## The relay and the listener (claims C5-C7) -/

theorem Errorf_marshal (err : GoError) :
    Errorf "failed to marshal request body: %w" [.err err] =
      .wrapError ("failed to marshal request body: " ++ err.Error) err := by
  simp +decide [Errorf, Errorf.wrapped, Sprintf.go, fmtVerb, fmtExtra, String.ext_iff]

theorem Errorf_transport (err : GoError) :
    Errorf "failed to send webhook request: %w" [.err err] =
      .wrapError ("failed to send webhook request: " ++ err.Error) err := by
  simp +decide [Errorf, Errorf.wrapped, Sprintf.go, fmtVerb, fmtExtra, String.ext_iff]

theorem Errorf_rejected (status : String) :
    Errorf "failed to send webhook request: %s" [.str status] =
      .errorString ("failed to send webhook request: " ++ status) := by
  simp +decide [Errorf, Errorf.wrapped, Sprintf.go, fmtVerb, fmtExtra, String.ext_iff]

theorem posts_append (w v : List Event) : posts (w ++ v) = posts w ++ posts v := by
  simp [posts, List.filterMap_append]

theorem writtenHeaders_append (w v : List Event) :
    writtenHeaders (w ++ v) = writtenHeaders w ++ writtenHeaders v := by
  simp [writtenHeaders, List.filterMap_append]

/-- The error returned by `processAlert`, by cases on the outcomes of marshalling and of the
POST. -/
theorem processAlert_fst (rt : Runtime) (a : AlertNotification) (w : List Event) :
    (processAlert rt a w).1 =
      match rt.jsonMarshal (processAlert_dm rt a) with
      | .error err => some (.wrapError ("failed to marshal request body: " ++ err.Error) err)
      | .ok dmBody =>
        match rt.httpPost rt.webhook "application/json" dmBody with
        | .error err => some (.wrapError ("failed to send webhook request: " ++ err.Error) err)
        | .ok resp =>
          if resp.StatusCode = 204 then none
          else some (.errorString ("failed to send webhook request: " ++ resp.Status)) := by
  unfold processAlert
  cases hm : rt.jsonMarshal (processAlert_dm rt a) with
  | error err => simp [hm, Errorf_marshal]
  | ok dmBody =>
    cases hp : rt.httpPost rt.webhook "application/json" dmBody with
    | error err => simp [hm, hp, Errorf_transport]
    | ok resp =>
      by_cases hc : resp.StatusCode = 204
      · simp [hm, hp, hc, StatusNoContent]
      · simp [hm, hp, hc, StatusNoContent, Errorf_rejected]

/-- The trace left by `processAlert`: nothing but the debug line and the single POST. -/
theorem processAlert_snd (rt : Runtime) (a : AlertNotification) (w : List Event) :
    posts (processAlert rt a w).2 =
        posts w ++
          (match rt.jsonMarshal (processAlert_dm rt a) with
           | .error _ => []
           | .ok dmBody => [(rt.webhook, "application/json", dmBody)]) ∧
      writtenHeaders (processAlert rt a w).2 = writtenHeaders w := by
  unfold processAlert
  cases hm : rt.jsonMarshal (processAlert_dm rt a) with
  | error err => simp [hm]
  | ok dmBody =>
    cases hp : rt.httpPost rt.webhook "application/json" dmBody with
    | error err =>
      cases hd : rt.debug <;> simp [hm, hp, hd, posts_append, writtenHeaders_append] <;>
        simp [posts, writtenHeaders]
    | ok resp =>
      by_cases hc : resp.StatusCode = StatusNoContent <;> cases hd : rt.debug <;>
        simp [hm, hp, hc, hd, posts_append, writtenHeaders_append] <;>
        simp [posts, writtenHeaders]

/-- C6: `processAlert` returns `nil` exactly when the message was serialised, the POST of the
serialised body completed without a transport error and the response status code is 204.
In every other case it returns an error: a serialisation failure and a transport error give
an error that wraps the cause, and a response with any other status code (200 included)
gives an error whose message ends with the status text of the response. -/
theorem processAlert_result (rt : Runtime) (a : AlertNotification) (w : List Event) :
    ((processAlert rt a w).1 = none ↔
        ∃ dmBody resp, rt.jsonMarshal (processAlert_dm rt a) = .ok dmBody ∧
          rt.httpPost rt.webhook "application/json" dmBody = .ok resp ∧
          resp.StatusCode = 204) ∧
      (∀ err, rt.jsonMarshal (processAlert_dm rt a) = .error err →
        ∃ e, (processAlert rt a w).1 = some e ∧ e.Unwrap = some err ∧
          e.Error = "failed to marshal request body: " ++ err.Error) ∧
      (∀ dmBody err, rt.jsonMarshal (processAlert_dm rt a) = .ok dmBody →
        rt.httpPost rt.webhook "application/json" dmBody = .error err →
        ∃ e, (processAlert rt a w).1 = some e ∧ e.Unwrap = some err ∧
          e.Error = "failed to send webhook request: " ++ err.Error) ∧
      (∀ dmBody resp, rt.jsonMarshal (processAlert_dm rt a) = .ok dmBody →
        rt.httpPost rt.webhook "application/json" dmBody = .ok resp →
        resp.StatusCode ≠ 204 →
        ∃ e, (processAlert rt a w).1 = some e ∧ e.Unwrap = none ∧
          e.Error = "failed to send webhook request: " ++ resp.Status) := by
  rw [processAlert_fst]
  refine ⟨?_, ?_, ?_, ?_⟩
  · cases hm : rt.jsonMarshal (processAlert_dm rt a) with
    | error err => simp
    | ok dmBody =>
      cases hp : rt.httpPost rt.webhook "application/json" dmBody with
      | error err => simp [hp]
      | ok resp =>
        by_cases hc : resp.StatusCode = 204 <;> simp [hp, hc]
  · intro err hm
    simp [hm, GoError.Unwrap, GoError.Error]
  · intro dmBody err hm hp
    simp [hm, hp, GoError.Unwrap, GoError.Error]
  · intro dmBody resp hm hp hc
    simp [hm, hp, hc, GoError.Unwrap, GoError.Error]

theorem processAlert_result_witness :
    (processAlert (sampleRuntime scenario1) scenario1 []).1 = none ∧
      (∃ e, (processAlert rejectingRuntime scenario1 []).1 = some e ∧ e.Unwrap = none ∧
        e.Error = "failed to send webhook request: 200 OK") ∧
      ∃ e, (processAlert marshalFailingRuntime scenario1 []).1 = some e ∧
        e.Unwrap = some (.errorString "unsupported value") ∧
        e.Error = "failed to marshal request body: unsupported value" :=
  ⟨(processAlert_result (sampleRuntime scenario1) scenario1 []).1.mpr
      ⟨[], { Status := "204 No Content", StatusCode := 204 }, rfl, rfl, rfl⟩,
    (processAlert_result rejectingRuntime scenario1 []).2.2.2 []
      { Status := "200 OK", StatusCode := 200 } rfl rfl (by decide),
    (processAlert_result marshalFailingRuntime scenario1 []).2.1
      (.errorString "unsupported value") rfl⟩

/-- The handler, by cases on what it decoded and on the outcome of `processAlert`: the POSTs
and the header writes it adds to the trace. -/
theorem handler_trace (rt : Runtime) (r : Request) (w : List Event) :
    posts (listenForAlerts_handler rt r w) =
        posts w ++
          (match decoded rt r with
           | none => []
           | some a =>
             match rt.jsonMarshal (processAlert_dm rt a) with
             | .error _ => []
             | .ok dmBody => [(rt.webhook, "application/json", dmBody)]) ∧
      writtenHeaders (listenForAlerts_handler rt r w) =
        writtenHeaders w ++
          [match decoded rt r with
           | none => (400 : Int)
           | some a => if (processAlert rt a []).1 = none then 204 else 500] := by
  unfold listenForAlerts_handler decoded
  cases hr : r.ReadAll with
  | error err =>
    simp [hr, posts_append, writtenHeaders_append, StatusBadRequest]
    simp [posts, writtenHeaders]
  | ok body =>
    cases hu : rt.jsonUnmarshal body with
    | error err =>
      cases hd : rt.debug <;>
        simp [hr, hu, hd, posts_append, writtenHeaders_append, StatusBadRequest] <;>
        simp [posts, writtenHeaders]
    | ok a =>
      simp only [hr, hu]
      generalize hw2 :
        (if rt.debug = true then
            w ++ [Event.logPrintf "received %s on %s/%s"
                    [.arg (.str r.Method), .arg (.str r.Host), .arg (.str r.RawPath)]] ++
              [Event.fmtPrintf "[DEBUG] received: %s" [.bytes body]]
          else
            w ++ [Event.logPrintf "received %s on %s/%s"
                    [.arg (.str r.Method), .arg (.str r.Host), .arg (.str r.RawPath)]]) = w2
      have hp2 : posts w2 = posts w ∧ writtenHeaders w2 = writtenHeaders w := by
        subst hw2
        cases hd : rt.debug <;> simp [posts_append, writtenHeaders_append] <;>
          simp [posts, writtenHeaders]
      have h1 := processAlert_snd rt a w2
      have h2 : (processAlert rt a w2).1 = (processAlert rt a []).1 := by
        rw [processAlert_fst, processAlert_fst]
      rw [hp2.1, hp2.2] at h1
      rw [← h2]
      generalize processAlert rt a w2 = p at h1 ⊢
      obtain ⟨e, w3⟩ := p
      cases e with
      | none =>
        simp only [posts_append, writtenHeaders_append, h1.1, h1.2]
        simp [posts, writtenHeaders, StatusNoContent]
      | some err =>
        simp only [posts_append, writtenHeaders_append, h1.1, h1.2]
        simp [posts, writtenHeaders, StatusInternalServerError]

theorem processAlert_fst_indep (rt : Runtime) (a : AlertNotification) (w v : List Event) :
    (processAlert rt a w).1 = (processAlert rt a v).1 := by
  rw [processAlert_fst, processAlert_fst]

/-- C5: the handler writes exactly one status, which is 400, 500 or 204: 400 exactly when
reading the body or decoding it fails, 500 exactly when the body decodes and `processAlert`
returns an error of whatever kind, and 204 exactly when the body decodes and `processAlert`
returns `nil`. -/
theorem handler_status (rt : Runtime) (r : Request) (w : List Event) :
    ∃ code : Int,
      writtenHeaders (listenForAlerts_handler rt r w) = writtenHeaders w ++ [code] ∧
        (code = 400 ∨ code = 500 ∨ code = 204) ∧
        (code = 400 ↔
          (∃ err, r.ReadAll = .error err) ∨
            ∃ body err, r.ReadAll = .ok body ∧ rt.jsonUnmarshal body = .error err) ∧
        (code = 500 ↔
          ∃ body a err, r.ReadAll = .ok body ∧ rt.jsonUnmarshal body = .ok a ∧
            ∀ v, (processAlert rt a v).1 = some err) ∧
        (code = 204 ↔
          ∃ body a, r.ReadAll = .ok body ∧ rt.jsonUnmarshal body = .ok a ∧
            ∀ v, (processAlert rt a v).1 = none) := by
  refine ⟨_, (handler_trace rt r w).2, ?_⟩
  unfold decoded
  cases hr : r.ReadAll with
  | error err => simp
  | ok body =>
    cases hu : rt.jsonUnmarshal body with
    | error err => simp [hu]
    | ok a =>
      cases hp : (processAlert rt a []).1 with
      | none =>
        have h : ∀ v, (processAlert rt a v).1 = none := fun v =>
          (processAlert_fst_indep rt a v []).trans hp
        simp [hu, h]
      | some e =>
        have h : ∀ v, (processAlert rt a v).1 = some e := fun v =>
          (processAlert_fst_indep rt a v []).trans hp
        simp [hu, h]

/-- C7: the handler performs at most one outbound POST: none when the body cannot be read or
decoded, none when serialising the message fails, and exactly one, carrying the serialised
message to the configured webhook, when decoding and serialisation succeed, whatever the
outcome of that POST. -/
theorem handler_posts (rt : Runtime) (r : Request) (w : List Event) :
    posts (listenForAlerts_handler rt r w) =
        posts w ++
          (match decoded rt r with
           | none => []
           | some a =>
             match rt.jsonMarshal (processAlert_dm rt a) with
             | .error _ => []
             | .ok dmBody => [(rt.webhook, "application/json", dmBody)]) ∧
      (posts (listenForAlerts_handler rt r w)).length ≤ (posts w).length + 1 ∧
      (decoded rt r = none ↔
        (∃ err, r.ReadAll = .error err) ∨
          ∃ body err, r.ReadAll = .ok body ∧ rt.jsonUnmarshal body = .error err) := by
  refine ⟨(handler_trace rt r w).1, ?_, ?_⟩
  · rw [(handler_trace rt r w).1]
    cases decoded rt r with
    | none => simp
    | some a =>
      cases hm : rt.jsonMarshal (processAlert_dm rt a) <;> simp [hm]
  · unfold decoded
    cases hr : r.ReadAll with
    | error err => simp
    | ok body => cases hu : rt.jsonUnmarshal body <;> simp [hu]

/-! ## Serialising and parsing back (claim C9) -/

theorem field_roundtrip (equalFold : String → String → Bool) (f old : DiscordEmbedField) :
    DiscordEmbedField.fromJSON equalFold f.toJSON old = .ok f := by
  simp [DiscordEmbedField.fromJSON, DiscordEmbedField.toJSON, decodeMembers,
    DiscordEmbedField.setMember, findField, decodeString, decodeBool, Except.map]

theorem fields_roundtrip (equalFold : String → String → Bool) (zero : DiscordEmbedField)
    (fs : List DiscordEmbedField) :
    decodeElems zero (DiscordEmbedField.fromJSON equalFold) (fs.map DiscordEmbedField.toJSON) =
      .ok fs := by
  induction fs with
  | nil => simp [decodeElems]
  | cons f fs ih => simp [decodeElems, field_roundtrip, ih]

theorem embed_roundtrip (equalFold : String → String → Bool) (e : DiscordEmbed)
    (hColor : -(2 : Int) ^ 63 ≤ e.Color ∧ e.Color < (2 : Int) ^ 63) :
    DiscordEmbed.fromJSON equalFold e.toJSON
        { Title := "", Description := "", Url := "", Color := 0, Fields := [] } =
      .ok e := by
  obtain ⟨title, description, url, color, fields⟩ := e
  simp only at hColor
  norm_num at hColor
  by_cases h1 : title = "" <;> by_cases h2 : description = "" <;> by_cases h3 : url = "" <;>
    by_cases h4 : fields = [] <;>
    simp [DiscordEmbed.fromJSON, DiscordEmbed.toJSON, decodeMembers, DiscordEmbed.setMember,
      findField, decodeString, decodeInt, decodeFields, fields_roundtrip, Except.map, h1, h2, h3,
      h4, hColor]

theorem embeds_roundtrip (equalFold : String → String → Bool) (es : List DiscordEmbed)
    (hColor : ∀ e ∈ es, -(2 : Int) ^ 63 ≤ e.Color ∧ e.Color < (2 : Int) ^ 63) :
    decodeElems { Title := "", Description := "", Url := "", Color := 0, Fields := [] }
        (DiscordEmbed.fromJSON equalFold) (es.map DiscordEmbed.toJSON) =
      .ok es := by
  induction es with
  | nil => simp [decodeElems]
  | cons e es ih =>
    have h1 := embed_roundtrip equalFold e (hColor e (List.mem_cons_self _ _))
    have h2 := ih (fun x hx => hColor x (List.mem_cons_of_mem _ hx))
    simp [decodeElems, h1, h2]

theorem message_roundtrip (equalFold : String → String → Bool) (m : DiscordMessage)
    (hColor : ∀ e ∈ m.Embeds, -(2 : Int) ^ 63 ≤ e.Color ∧ e.Color < (2 : Int) ^ 63) :
    DiscordMessage.unmarshal equalFold m.toJSON = .ok m := by
  obtain ⟨content, embeds⟩ := m
  have h := embeds_roundtrip equalFold embeds hColor
  by_cases h1 : content = "" <;> by_cases h2 : embeds = [] <;>
    simp [DiscordMessage.unmarshal, DiscordMessage.fromJSON, DiscordMessage.toJSON,
      decodeMembers, DiscordMessage.setMember, findField, decodeString, decodeEmbeds, h,
      Except.map, h1, h2]

theorem processAlert_switch_range (status : String) :
    -(2 : Int) ^ 63 ≤ (processAlert_switch status).1 ∧
      (processAlert_switch status).1 < (2 : Int) ^ 63 := by
  unfold processAlert_switch
  split
  · decide
  · split <;> decide

theorem title_ne_empty (status rest : String) :
    (processAlert_switch status).2 ++ rest ≠ "" := by
  unfold processAlert_switch
  split
  · simp [EmojiFiring, String.ext_iff]
  · split <;> simp [EmojiResolved, EmojiUnknown, String.ext_iff]

/-- C9: serialising the message built by `processAlert` following the struct tags of
`DiscordMessage`, `DiscordEmbed` and `DiscordEmbedField`, and parsing the result back into a
`DiscordMessage`, gives back the message: the same single embed with the same title, URL and
color and the same fields in the same order, also when the URL or a field value is empty.
The serialised message has no `content` and no `description` member, a `url` member only
when the URL is not empty, and both fields with their values even when these are empty. -/
theorem processAlert_dm_roundtrip (equalFold : String → String → Bool) (rt : Runtime)
    (a : AlertNotification) :
    DiscordMessage.unmarshal equalFold (processAlert_dm rt a).toJSON =
        .ok (processAlert_dm rt a) ∧
      (processAlert_dm rt a).toJSON =
        .object
          [("embeds",
            .array
              [.object
                ([("title",
                    .string
                      ((processAlert_switch a.Status).2 ++ " [" ++
                        ToUpper rt.unicodeToUpper a.Status ++ ":" ++
                        Nat.repr a.Alerts.length ++ "] " ++
                        GoMap.index a.CommonLabels "alertname"))] ++
                  (if a.ExternalURL = "" then [] else [("url", .string a.ExternalURL)]) ++
                  [("color", .number (processAlert_switch a.Status).1),
                   ("fields",
                    .array
                      [.object
                         [("name", .string "Labels"),
                          ("value", .string (String.join (a.CommonLabels.map entryLine))),
                          ("inline", .bool true)],
                       .object
                         [("name", .string "Annotations"),
                          ("value", .string (String.join (a.CommonAnnotations.map entryLine))),
                          ("inline", .bool true)]])])])] := by
  have hColor : ∀ e ∈ (processAlert_dm rt a).Embeds,
      -(2 : Int) ^ 63 ≤ e.Color ∧ e.Color < (2 : Int) ^ 63 := by
    intro e he
    rw [processAlert_dm_eq] at he
    simp only [List.mem_singleton] at he
    subst he
    exact processAlert_switch_range a.Status
  refine ⟨message_roundtrip equalFold _ hColor, ?_⟩
  have ht := title_ne_empty a.Status
    (" [" ++ ToUpper rt.unicodeToUpper a.Status ++ ":" ++ Nat.repr a.Alerts.length ++ "] " ++
      GoMap.index a.CommonLabels "alertname")
  simp only [← String.append_assoc] at ht
  rw [processAlert_dm_eq]
  by_cases hu : a.ExternalURL = "" <;>
    simp [DiscordMessage.toJSON, DiscordEmbed.toJSON, DiscordEmbedField.toJSON, ht, hu]

end Main
